import Mathlib

/-!
Verification of the libDaisy WAV streaming core: the RIFF/WAV container
parser (`src/util/WavParser.h`) and the `WavPlayer` streaming playback
engine.  The C++ sources are shallowly embedded: byte sources become a
`Reader` structure over a list of byte values, the FatFS file handle of the
player becomes an explicit `file_data`/`file_pos` pair, machine `uint32_t`
additions that may wrap are taken modulo 2^32, `float` quantities are
modelled as rationals, and the C++ `while` loops are run on an explicit
fuel that is computed, at the call site, from the quantity the source loop
decreases (so the fuel never runs out on the traces the source exhibits).
-/

namespace DaisyWav

/-- Modulus of the C `uint32_t` arithmetic used by the parser. -/
def U32 : Nat := 4294967296

/-! ## Byte source (the `IReader` capability of `FileReader.h`)

A byte source is a list of byte values together with a read position.
`read` transfers as many of the requested bytes as remain (a short count
signals EOF), `seek` is an absolute reposition that always succeeds (the
cstdio-backed `FileReader` accepts any absolute offset), `size` is the total
size, reported as `0` exactly when the list is empty (unknown size). -/

structure Reader where
  data : List Nat
  pos : Nat
deriving DecidableEq

/-- Model of `IReader::read`: transfer up to `n` bytes from the current position,
returning the bytes actually read and the advanced reader. -/
def Reader.read (r : Reader) (n : Nat) : List Nat × Reader :=
  let bs := (r.data.drop r.pos).take n
  (bs, { r with pos := r.pos + bs.length })

/-- Model of `IReader::seek`: absolute seek from the start; always succeeds. -/
def Reader.seek (r : Reader) (p : Nat) : Bool × Reader :=
  (true, { r with pos := p })

/-- Model of `IReader::size`: total size if known (`0` if unknown). -/
def Reader.size (r : Reader) : Nat := r.data.length

/-! ## WAV container parser (`WavParser.h`) -/

/-- Model of `daisy::WavFormatInfo`. -/
structure WavFormatInfo where
  audioFormat : Nat
  numChannels : Nat
  sampleRate : Nat
  byteRate : Nat
  blockAlign : Nat
  bitsPerSample : Nat
  validBitsPerSample : Nat
  channelMask : Nat
  subFormat : Nat
deriving DecidableEq

/-- Model of `daisy::MetadataEntry`. -/
structure MetadataEntry where
  fourcc : Nat
  size : Nat
  offset : Nat
deriving DecidableEq

/-- The mutable fields of `daisy::WavParser`. -/
structure ParserState where
  fmt : WavFormatInfo
  haveFmt : Bool
  haveData : Bool
  dataOffset : Nat
  dataSize : Nat
  metadata : List MetadataEntry
  fileSize : Nat
deriving DecidableEq

/-- Model of `WavParser::reset`: the state installed at the top of `parse`. -/
def resetState : ParserState :=
  { fmt := ⟨0, 0, 0, 0, 0, 0, 0, 0, 0⟩
    haveFmt := false
    haveData := false
    dataOffset := 0
    dataSize := 0
    metadata := []
    fileSize := 0 }

/-- Model of `make_fourcc`: little-endian packing of four character codes. -/
def make_fourcc (a b c d : Nat) : Nat :=
  a + b * 256 + c * 65536 + d * 16777216

def FOURCC_RIFF : Nat := make_fourcc 82 73 70 70   -- R I F F
def FOURCC_WAVE : Nat := make_fourcc 87 65 86 69   -- W A V E
def FOURCC_FMT : Nat := make_fourcc 102 109 116 32 -- f m t ␣
def FOURCC_DATA : Nat := make_fourcc 100 97 116 97 -- d a t a

/-- Model of `WavParser::MAX_METADATA_CHUNKS`. -/
def MAX_METADATA_CHUNKS : Nat := 16

/-- Model of `WavParser::rd_u16`: little-endian 16-bit decode of the first two bytes. -/
def rd_u16 (b : List Nat) : Nat :=
  b.getD 0 0 + (b.getD 1 0) * 256

/-- Model of `WavParser::rd_u32`: little-endian 32-bit decode of the first four bytes. -/
def rd_u32 (b : List Nat) : Nat :=
  b.getD 0 0 + (b.getD 1 0) * 256 + (b.getD 2 0) * 65536
    + (b.getD 3 0) * 16777216

/-- Model of `WavParser::read_exact`: a read that fails unless it transfers exactly
`n` bytes. -/
def readExact (r : Reader) (n : Nat) : Option (List Nat × Reader) :=
  let p := r.read n
  if p.1.length = n then some p else none

/-- Model of `WavParser::skip_bytes`: seek ahead by `count` bytes (the `uint32_t`
target wraps modulo 2^32). -/
def skip_bytes (r : Reader) (count : Nat) : Bool × Reader :=
  r.seek ((r.pos + count) % U32)

/-- Model of `WavParser::skip_chunk_payload`. -/
def skip_chunk_payload (r : Reader) (sz : Nat) : Bool × Reader :=
  r.seek ((r.pos + sz) % U32)

/-- Model of `WavParser::skip_rest_of_chunk`. -/
def skip_rest_of_chunk (r : Reader) (chSize consumed : Nat) : Bool × Reader :=
  if consumed < chSize then skip_bytes r (chSize - consumed) else (true, r)

/-- Model of `WavParser::read_riff_header`: read the 12-byte RIFF header, check the
`RIFF`/`WAVE` magics and establish `fileSize_`. -/
def read_riff_header (st : ParserState) (r : Reader) :
    Bool × ParserState × Reader :=
  match readExact r 12 with
  | none => (false, st, r)
  | some (hdr, r1) =>
    let riff := rd_u32 hdr
    let fileSizeMinus8 := rd_u32 (hdr.drop 4)
    let wave := rd_u32 (hdr.drop 8)
    if riff ≠ FOURCC_RIFF ∨ wave ≠ FOURCC_WAVE then (false, st, r1)
    else
      let st1 := { st with fileSize := (fileSizeMinus8 + 8) % U32 }
      let st2 := if r1.size ≠ 0 then { st1 with fileSize := r1.size } else st1
      (true, st2, r1)

/-- Model of `WavParser::parse_fmt_chunk`.  The canonical 16 fmt bytes are decoded
into `fmt_` before the audio-format tag is validated, exactly as in the
source; the extensible (`0xFFFE`) extension block is decoded when present
and long enough. -/
def parse_fmt_chunk (st : ParserState) (r : Reader) (chSize : Nat) :
    Bool × ParserState × Reader :=
  if chSize < 16 then (false, st, r)
  else
    match readExact r 16 with
    | none => (false, st, r)
    | some (core, r1) =>
      let fmt1 : WavFormatInfo :=
        { audioFormat := rd_u16 core
          numChannels := rd_u16 (core.drop 2)
          sampleRate := rd_u32 (core.drop 4)
          byteRate := rd_u32 (core.drop 8)
          blockAlign := rd_u16 (core.drop 12)
          bitsPerSample := rd_u16 (core.drop 14)
          validBitsPerSample := st.fmt.validBitsPerSample
          channelMask := st.fmt.channelMask
          subFormat := st.fmt.subFormat }
      let st1 := { st with fmt := fmt1 }
      if fmt1.audioFormat ≠ 1 ∧ fmt1.audioFormat ≠ 3 ∧
          fmt1.audioFormat ≠ 65534 then
        let p := skip_rest_of_chunk r1 chSize 16
        (false, st1, p.2)
      else if 16 < chSize then
        let remain := chSize - 16
        if fmt1.audioFormat = 65534 ∧ 2 ≤ remain then
          match readExact r1 2 with
          | none => (false, st1, r1)
          | some (extSizeBuf, r2) =>
            let extSize := rd_u16 extSizeBuf
            if 22 ≤ extSize ∧ 2 + 22 ≤ remain then
              match readExact r2 22 with
              | none => (false, st1, r2)
              | some (ext, r3) =>
                let fmt2 :=
                  { fmt1 with
                    validBitsPerSample := rd_u16 ext
                    channelMask := rd_u32 (ext.drop 2)
                    subFormat := rd_u16 (ext.drop 6) }
                let st2 := { st1 with fmt := fmt2 }
                if 22 < extSize then
                  let p := skip_bytes r3 (extSize - 22)
                  if p.1 then (true, { st2 with haveFmt := true }, p.2)
                  else (false, st2, p.2)
                else (true, { st2 with haveFmt := true }, r3)
            else
              let p := skip_bytes r2 (remain - 2)
              if p.1 then (true, { st1 with haveFmt := true }, p.2)
              else (false, st1, p.2)
        else
          let p := skip_bytes r1 remain
          if p.1 then (true, { st1 with haveFmt := true }, p.2)
          else (false, st1, p.2)
      else (true, { st1 with haveFmt := true }, r1)

/-- One chunk dispatcher: the body of the `parse` loop that handles a
chunk header `(chId, chSize)` whose payload starts at `r.pos` (fmt chunk,
data chunk, or recorded-and-skipped metadata chunk). -/
def parseChunkStep (st : ParserState) (r : Reader) (chId chSize : Nat) :
    Bool × ParserState × Reader :=
  if chId = FOURCC_FMT then parse_fmt_chunk st r chSize
  else if chId = FOURCC_DATA then
    let st1 := { st with dataOffset := r.pos, dataSize := chSize }
    let p := skip_chunk_payload r chSize
    if p.1 then (true, { st1 with haveData := true }, p.2)
    else (false, st1, p.2)
  else
    let st1 :=
      if st.metadata.length < MAX_METADATA_CHUNKS then
        { st with metadata := st.metadata ++ [⟨chId, chSize, r.pos⟩] }
      else st
    let p := skip_chunk_payload r chSize
    (p.1, st1, p.2)

/-- The chunk-scanning `while` loop of `WavParser::parse`, on explicit
fuel.  Each iteration consumes an 8-byte chunk header, so `fileSize_ + 1`
units of fuel (what `parse` supplies) can never be exhausted before the
loop condition `position + 8 ≤ fileSize_` fails. -/
def parseLoop : Nat → ParserState → Reader → Bool × ParserState × Reader
  | 0, st, r => (st.haveFmt && st.haveData, st, r)
  | fuel + 1, st, r =>
    if r.pos + 8 ≤ st.fileSize then
      match readExact r 8 with
      | none => (false, st, r)
      | some (buf, r1) =>
        let chId := rd_u32 buf
        let chSize := rd_u32 (buf.drop 4)
        match parseChunkStep st r1 chId chSize with
        | (false, st2, r2) => (false, st2, r2)
        | (true, st2, r2) =>
          if chSize % 2 = 1 then
            let p := r2.read 1
            if p.1.length = 1 then
              if st2.haveFmt && st2.haveData then
                (st2.haveFmt && st2.haveData, st2, p.2)
              else parseLoop fuel st2 p.2
            else (st2.haveFmt && st2.haveData, st2, p.2)
          else
            if st2.haveFmt && st2.haveData then
              (st2.haveFmt && st2.haveData, st2, r2)
            else parseLoop fuel st2 r2
    else (st.haveFmt && st.haveData, st, r)

/-- Model of `WavParser::parse`: reset, validate the RIFF header, scan chunks. -/
def parse (r : Reader) : Bool × ParserState × Reader :=
  match read_riff_header resetState r with
  | (false, st, r1) => (false, st, r1)
  | (true, st, r1) => parseLoop (st.fileSize + 1) st r1

/-! ## The streaming playback engine (`WavPlayer<workspace_bytes>`)

The template parameter `workspace_bytes` is passed explicitly as `wb`.
`float` state (`pos_acc_`, `playback_speed_`, the decoded samples) is
modelled over `ℚ`; the FatFS file handle becomes the byte list
`file_data` with position `file_pos`. -/

/-- Modelled from the spec: the fixed-capacity single-producer /
single-consumer FIFO (`daisy::FIFO`, a libDaisy utility not under `src/`).
`pushBack` reports `false` and leaves the queue unchanged when it is full;
popping an empty FIFO is undefined behaviour for the caller, modelled here
as returning the default element and leaving the FIFO empty. -/
structure Fifo (α : Type) where
  cap : Nat
  items : List α
deriving DecidableEq

def Fifo.pushBack {α : Type} (f : Fifo α) (x : α) : Bool × Fifo α :=
  if f.items.length < f.cap then (true, ⟨f.cap, f.items ++ [x]⟩)
  else (false, f)

def Fifo.popFront {α : Type} [Inhabited α] (f : Fifo α) : α × Fifo α :=
  match f.items with
  | [] => (default, f)
  | x :: xs => (x, ⟨f.cap, xs⟩)

def Fifo.size {α : Type} (f : Fifo α) : Nat := f.items.length

def Fifo.isEmpty {α : Type} (f : Fifo α) : Bool := f.items.isEmpty

def Fifo.clear {α : Type} (f : Fifo α) : Fifo α := ⟨f.cap, []⟩

/-- Model of `WavPlayer::Result`. -/
inductive Result where
  | Ok
  | FileNotFoundError
  | PlaybackUnderrun
  | PrepareOverrun
  | NewSamplesRequested
  | DiskError
deriving DecidableEq

/-- Model of `WavPlayer::IoRequest::Type`. -/
inductive IoType where
  | Read
  | Seek
  | Unknown
deriving DecidableEq

/-- Model of `WavPlayer::IoRequest`: `data` is a sample count for `Read` and a
target position in samples for `Seek`. -/
structure IoRequest where
  type : IoType
  data : Nat
deriving DecidableEq

/-- Model of `WavPlayer::FileInfo`. -/
structure FileInfo where
  channels : Nat
  length : Nat
  samplerate : Nat
  data_start : Nat
  data_size_bytes : Nat
deriving DecidableEq

/-- Model of `WavPlayer::kMaxAudioChannels`. -/
def kMaxAudioChannels : Nat := 8

/-- Model of `WavPlayer::kRxSizeSamples`: samples that fit into the workspace. -/
def kRxSizeSamples (wb : Nat) : Nat := wb / 2

/-- Model of `WavPlayer::kRxFifoThreshold`: occupancy below which a refill is
requested. -/
def kRxFifoThreshold (wb : Nat) : Nat := kRxSizeSamples wb / 4 * 3

/-- The complete mutable state of a `WavPlayer` instance.  `file_data` and
`file_pos` stand for the FatFS `FIL` handle. -/
structure PlayerState where
  file_data : List Nat
  file_pos : Nat
  request_fifo : Fifo IoRequest
  buff_fifo : Fifo Int
  position : Nat
  file_info : FileInfo
  looping : Bool
  playing : Bool
  playback_speed : ℚ
  current_sample : Fin 8 → ℚ
  previous_sample : Fin 8 → ℚ
  is_open : Bool
  pending_read : Bool
  pending_seek : Bool
  pos_acc : ℚ
  bytes_left_in_chunk : Nat
  frame_bytes : Nat

/-- Modelled from the spec: `s162f` (a libDaisy helper not under `src/`),
the conversion of a 16-bit integer sample to a normalized float. -/
def s162f (x : Int) : ℚ := (x : ℚ) / 32768

/-- Two little-endian bytes of the raw workspace buffer as a signed 16-bit
sample value. -/
def int16le (lo hi : Nat) : Int :=
  let v := (lo + hi * 256) % 65536
  if v < 32768 then (v : Int) else (v : Int) - 65536

/-- The first `count` 16-bit samples of the zero-initialised workspace
buffer after the bytes `bs` were read into its front. -/
def samplesOfBytes (bs : List Nat) (count : Nat) : List Int :=
  (List.range count).map fun i => int16le (bs.getD (2 * i) 0) (bs.getD (2 * i + 1) 0)

/-- Model of `f_read` on the open file: transfer up to `n` bytes from the current
position (a short count signals EOF) and advance the position. -/
def fileRead (s : PlayerState) (n : Nat) : List Nat × PlayerState :=
  let bs := (s.file_data.drop s.file_pos).take n
  (bs, { s with file_pos := s.file_pos + bs.length })

/-- Push samples into the sample FIFO one at a time, stopping immediately
at the first rejected push (already-pushed samples are retained); the
returned flag is `false` exactly when a push was rejected. -/
def pushSamples : List Int → Fifo Int → Bool × Fifo Int
  | [], f => (true, f)
  | x :: xs, f =>
    match f.pushBack x with
    | (true, f1) => pushSamples xs f1
    | (false, f1) => (false, f1)

/-! ### `WavPlayer::Stream` -/

/-- Model of `file_info_.length > 0 ? file_info_.length : 1`: the file length with
`0` treated as `1`. -/
def effLength (s : PlayerState) : Nat :=
  if 0 < s.file_info.length then s.file_info.length else 1

/-- The per-pop inner loop of `Stream`: for each file channel shift
`current` into `previous` and pop one new raw sample from the sample FIFO.
Channel indices at or above `kMaxAudioChannels` would index out of bounds
in the source; they are modelled as no-ops. -/
def popChannels (channels : Nat) (prev cur : Fin 8 → ℚ) (f : Fifo Int) :
    (Fin 8 → ℚ) × (Fin 8 → ℚ) × Fifo Int :=
  (List.range channels).foldl
    (fun acc i =>
      if h : i < 8 then
        let prev1 := Function.update acc.1 ⟨i, h⟩ (acc.2.1 ⟨i, h⟩)
        let vp := acc.2.2.popFront
        (prev1, Function.update acc.2.1 ⟨i, h⟩ (s162f vp.1), vp.2)
      else acc)
    (prev, cur, f)

/-- The `while(pos_acc_ >= 1.f)` loop of `Stream`, on explicit fuel.  Each
iteration lowers `pos_acc` by exactly `1`, so the `⌈pos_acc⌉` units of fuel
supplied by `streamAdvance` can never run out while the condition holds. -/
def streamWhileGo : Nat → PlayerState → PlayerState
  | 0, s => s
  | fuel + 1, s =>
    if 1 ≤ s.pos_acc then
      let s1 := { s with position := s.position + 1, pos_acc := s.pos_acc - 1 }
      let pcf := popChannels s1.file_info.channels s1.previous_sample
        s1.current_sample s1.buff_fifo
      streamWhileGo fuel
        { s1 with previous_sample := pcf.1, current_sample := pcf.2.1,
                  buff_fifo := pcf.2.2 }
    else s

/-- The sample-advance phase of `Stream`: when the sample FIFO is non-empty
and playback is on, add the playback speed to the accumulator and run the
pop loop. -/
def streamAdvance (s : PlayerState) : PlayerState :=
  if s.buff_fifo.isEmpty = false ∧ s.playing = true then
    let s0 := { s with pos_acc := s.pos_acc + s.playback_speed }
    streamWhileGo (Int.toNat ⌈s0.pos_acc⌉) s0
  else s

/-- The end-of-file phase of `Stream`: once the position reaches the file
length, reset it; stop when not looping, otherwise clear the accumulator
and copy `current` into `previous` for every channel. -/
def streamEof (s : PlayerState) : PlayerState :=
  if effLength s ≤ s.position then
    if s.looping = false then { s with position := 0, playing := false }
    else { s with position := 0, pos_acc := 0,
                  previous_sample := s.current_sample }
  else s

/-- The prefetch quantity of `Stream`: free slots minus one slot of
headroom, rounded down to a whole multiple of the channel count. -/
def rxQty (wb : Nat) (s : PlayerState) : Nat :=
  let free_slots := kRxSizeSamples wb - s.buff_fifo.size
  let rx0 := if 1 < free_slots then free_slots - 1 else 0
  if 0 < s.file_info.channels then rx0 - rx0 % s.file_info.channels else rx0

/-- The prefetch phase of `Stream`: below the threshold with no read
pending and a positive aligned quantity, push a `Read` request (the push
result is ignored) and mark a read pending; the returned flag is the
source's `requested_new_samps`. -/
def streamPrefetch (wb : Nat) (s : PlayerState) : Bool × PlayerState :=
  if s.buff_fifo.size < kRxFifoThreshold wb ∧ s.pending_read = false then
    if 0 < rxQty wb s then
      let pr := s.request_fifo.pushBack ⟨IoType.Read, rxQty wb s⟩
      (true, { s with request_fifo := pr.2, pending_read := true })
    else (false, s)
  else (false, s)

/-- The post-call state of `Stream`. -/
def streamNext (wb : Nat) (s : PlayerState) : PlayerState :=
  (streamPrefetch wb (streamEof (streamAdvance s))).2

/-- The `requested_new_samps` flag of a `Stream` call. -/
def streamRequested (wb : Nat) (s : PlayerState) : Bool :=
  (streamPrefetch wb (streamEof (streamAdvance s))).1

/-- The output block written by `Stream`: all requested channels are
zeroed; when the FIFO is non-empty and playback is on, the first
`min(file channels, requested channels)` get the linear interpolation
between the stored previous and current samples. -/
def streamOut (s : PlayerState) (num_channels : Nat) : List ℚ :=
  (List.range num_channels).map fun i =>
    if s.buff_fifo.isEmpty = false ∧ s.playing = true ∧
        i < min s.file_info.channels num_channels then
      if h : i < 8 then
        s.previous_sample ⟨i, h⟩ +
          s.pos_acc * (s.current_sample ⟨i, h⟩ - s.previous_sample ⟨i, h⟩)
      else 0
    else 0

/-- Model of `WavPlayer::Stream`: output block, result code, post-call state.  The
result is `NewSamplesRequested` when a prefetch was generated this call,
else `PlaybackUnderrun` when the sample FIFO is empty while playing, else
`Ok` (both tested on the state at the return point). -/
def Stream (wb : Nat) (s : PlayerState) (num_channels : Nat) :
    List ℚ × Result × PlayerState :=
  (streamOut s num_channels,
   (if streamRequested wb s then Result.NewSamplesRequested
    else if (streamNext wb s).buff_fifo.isEmpty = true ∧
        (streamNext wb s).playing = true then Result.PlaybackUnderrun
    else Result.Ok),
   streamNext wb s)

/-! ### `WavPlayer::Restart`, `Close`, setters -/

/-- The frame-aligned quantity of `Restart`'s capacity-sized read
request. -/
def restartQty (wb : Nat) (s : PlayerState) : Nat :=
  if 0 < s.file_info.channels then
    kRxSizeSamples wb - kRxSizeSamples wb % s.file_info.channels
  else kRxSizeSamples wb

/-- Model of `WavPlayer::Restart`: clear both queues, reset the interpolator state,
reset the remaining byte count, enqueue a Seek-to-0 followed by a
capacity-sized frame-aligned Read (push results ignored), mark both
requests pending, rewind the position, start playing. -/
def Restart (wb : Nat) (s : PlayerState) : PlayerState :=
  let s1 := { s with buff_fifo := s.buff_fifo.clear,
                     request_fifo := s.request_fifo.clear,
                     pos_acc := 0,
                     current_sample := fun _ => 0,
                     previous_sample := fun _ => 0,
                     bytes_left_in_chunk := s.file_info.data_size_bytes }
  let p1 := s1.request_fifo.pushBack ⟨IoType.Seek, 0⟩
  let s2 := { s1 with request_fifo := p1.2 }
  let s3 :=
    if 0 < restartQty wb s2 then
      let p2 := s2.request_fifo.pushBack ⟨IoType.Read, restartQty wb s2⟩
      { s2 with request_fifo := p2.2 }
    else s2
  { s3 with pending_read := true, pending_seek := true, position := 0,
            playing := true }

/-- Model of `WavPlayer::Close`: close the file handle, zero the `FileInfo` fields
`channels`, `data_start`, `length` and `samplerate` (the source does not
clear `data_size_bytes`), clear the open and playing flags. -/
def Close (s : PlayerState) : Result × PlayerState :=
  (Result.Ok,
   { s with
     file_info := { channels := 0, data_start := 0, length := 0,
                    samplerate := 0,
                    data_size_bytes := s.file_info.data_size_bytes }
     is_open := false
     playing := false })

/-- Model of `WavPlayer::SetPlaying`. -/
def SetPlaying (s : PlayerState) (state : Bool) : PlayerState :=
  { s with playing := state }

/-- Model of `WavPlayer::SetLooping`. -/
def SetLooping (s : PlayerState) (state : Bool) : PlayerState :=
  { s with looping := state }

/-! ### `WavPlayer::Open` -/

/-- Outcome of `f_open` on the named file: found (with its byte contents),
missing (`FR_NO_FILE`/`FR_NO_PATH`), or any other FatFS failure. -/
inductive FOpen where
  | found (bytes : List Nat)
  | missing
  | failed
deriving DecidableEq

/-- The tail of `Open` after a successful parse and prime read: clear the
sample FIFO, push the primed samples (whole frames only), reset the
playback position, clear both pending flags, set the remaining byte
count. -/
def openFinish (bs : List Nat) (s : PlayerState) : Result × PlayerState :=
  let s1 := { s with buff_fifo := s.buff_fifo.clear }
  let samps0 := bs.length / 2
  let samps :=
    if 0 < s1.file_info.channels then samps0 - samps0 % s1.file_info.channels
    else samps0
  let pf := pushSamples (samplesOfBytes bs samps) s1.buff_fifo
  (Result.Ok,
   { s1 with buff_fifo := pf.2, position := 0, pending_read := false,
             pending_seek := false,
             bytes_left_in_chunk :=
               if bs.length ≤ s1.file_info.data_size_bytes then
                 s1.file_info.data_size_bytes - bs.length
               else 0 })

/-- Model of `WavPlayer::Open`: open the file, parse the container, derive
`FileInfo` and the frame size, seek to the data start and prime the sample
FIFO with a frame-aligned read.  The open flag is set as soon as `f_open`
succeeds, before any of the later steps can fail; on a failed parse the
`length` division and the priming never run.  (When the frame size is
zero the source's `length` division is undefined behaviour in C; here the
natural-number convention `x / 0 = 0` applies.) -/
def Open (wb : Nat) (s : PlayerState) (fo : FOpen) : Result × PlayerState :=
  match fo with
  | FOpen.missing => (Result.FileNotFoundError, s)
  | FOpen.failed => (Result.DiskError, s)
  | FOpen.found bytes =>
    let s1 := { s with is_open := true, file_data := bytes, file_pos := 0 }
    match parse ⟨bytes, 0⟩ with
    | (false, _, rd) => (Result.DiskError, { s1 with file_pos := rd.pos })
    | (true, pst, rd) =>
      let fi : FileInfo :=
        { channels := pst.fmt.numChannels
          samplerate := pst.fmt.sampleRate
          data_size_bytes := pst.dataSize
          length := pst.dataSize /
            (pst.fmt.bitsPerSample / 8 * pst.fmt.numChannels)
          data_start := pst.dataOffset }
      let s2 := { s1 with file_info := fi, file_pos := rd.pos,
                          frame_bytes :=
                            fi.channels * (pst.fmt.bitsPerSample / 8) }
      if s2.frame_bytes = 0 then (Result.DiskError, s2)
      else
        let s3 := { s2 with file_pos := fi.data_start }
        let btr0 := min wb fi.data_size_bytes
        let btr := btr0 - btr0 % s3.frame_bytes
        if 0 < btr then
          let rp := fileRead s3 btr
          if rp.1.length ≠ btr then (Result.DiskError, rp.2)
          else openFinish rp.1 rp.2
        else openFinish [] s3

/-! ### `WavPlayer::Prepare` -/

/-- The final stage of a `Read` request in `Prepare`: convert the raw
bytes to samples (whole frames only) and push them into the sample FIFO;
a rejected push stops immediately and reports `PrepareOverrun`; the
pending-read flag is cleared either way. -/
def prepareRead3 (raw : List Nat) (s : PlayerState) :
    Option Result × PlayerState :=
  let samps0 := raw.length / 2
  let samps :=
    if 0 < s.file_info.channels then samps0 - samps0 % s.file_info.channels
    else samps0
  match pushSamples (samplesOfBytes raw samps) s.buff_fifo with
  | (true, f) => (none, { s with buff_fifo := f, pending_read := false })
  | (false, f) =>
    (some Result.PrepareOverrun,
     { s with buff_fifo := f, pending_read := false })

/-- The wrap-around stage of a `Read` request in `Prepare`: when the first
span fell short of the request and looping is on, seek back to the data
start and read a second frame-aligned span capped at the chunk size,
resetting the remaining byte count. -/
def prepareRead2 (bytes_requested : Nat) (bs1 : List Nat) (s : PlayerState) :
    Option Result × PlayerState :=
  if bs1.length < bytes_requested ∧ s.looping = true then
    let s1 := { s with file_pos := s.file_info.data_start }
    let remaining0 := bytes_requested - bs1.length
    let remaining := remaining0 - remaining0 % s1.frame_bytes
    if 0 < remaining then
      let span20 := min remaining s1.file_info.data_size_bytes
      let span2 := span20 - span20 % s1.frame_bytes
      if 0 < span2 then
        let rp := fileRead s1 span2
        if rp.1.length ≠ span2 then (some Result.DiskError, rp.2)
        else
          prepareRead3 (bs1 ++ rp.1)
            { rp.2 with
              bytes_left_in_chunk :=
                if span2 ≤ rp.2.file_info.data_size_bytes then
                  rp.2.file_info.data_size_bytes - span2
                else 0 }
      else prepareRead3 bs1 s1
    else prepareRead3 bs1 s1
  else prepareRead3 bs1 s

/-- A `Read` request in `Prepare`: frame-align the requested byte count
(clearing the pending flag and moving on when it is zero), read a first
span capped at the bytes left in the data chunk, then hand over to the
wrap-around and push stages.  A short read aborts with `DiskError`. -/
def prepareRead (qty : Nat) (s : PlayerState) : Option Result × PlayerState :=
  let bytes_requested := qty * 2 - qty * 2 % s.frame_bytes
  if bytes_requested = 0 then (none, { s with pending_read := false })
  else
    let first_span0 := min bytes_requested s.bytes_left_in_chunk
    let first_span := first_span0 - first_span0 % s.frame_bytes
    if 0 < first_span then
      let rp := fileRead s first_span
      if rp.1.length ≠ first_span then (some Result.DiskError, rp.2)
      else
        prepareRead2 bytes_requested rp.1
          { rp.2 with
            bytes_left_in_chunk := rp.2.bytes_left_in_chunk - first_span }
    else prepareRead2 bytes_requested [] s

/-- A `Seek` request in `Prepare`: convert the sample position to bytes
(two bytes per sample), clamp to the data size, round down to a whole
frame, seek the source to the data start plus that offset, reset the
remaining byte count, clear the pending-seek flag. -/
def prepareSeek (qty : Nat) (s : PlayerState) : Option Result × PlayerState :=
  let dest0 := min (qty * 2) s.file_info.data_size_bytes
  let dest := dest0 - dest0 % s.frame_bytes
  (none,
   { s with file_pos := s.file_info.data_start + dest,
            bytes_left_in_chunk := s.file_info.data_size_bytes - dest,
            pending_seek := false })

/-- Dispatch of one dequeued request inside the `Prepare` loop (the
`default` case of the source `switch` does nothing). -/
def prepareStep (req : IoRequest) (s : PlayerState) :
    Option Result × PlayerState :=
  match req.type with
  | IoType.Read => prepareRead req.data s
  | IoType.Seek => prepareSeek req.data s
  | IoType.Unknown => (none, s)

/-- The request-draining loop of `Prepare`, on explicit fuel.  Each
iteration removes exactly one request from the queue, so the
`queue length + 1` units of fuel supplied by `Prepare` can never be
exhausted while the queue is non-empty. -/
def prepareGo : Nat → PlayerState → Result × PlayerState
  | 0, s => (Result.Ok, s)
  | fuel + 1, s =>
    match s.request_fifo.items with
    | [] => (Result.Ok, s)
    | req :: rest =>
      match prepareStep req
          { s with request_fifo := { s.request_fifo with items := rest } } with
      | (some e, s1) => (e, s1)
      | (none, s1) => prepareGo fuel s1

/-- Model of `WavPlayer::Prepare`: drain the request queue in FIFO order, stopping
early only when a request aborts with an error result. -/
def Prepare (s : PlayerState) : Result × PlayerState :=
  prepareGo (s.request_fifo.items.length + 1) s

/-! ## Concrete example states and byte images used by the proofs -/

/-- A 44-byte canonical PCM WAV image whose fmt chunk declares zero
channels (fmt tag 1, 16-byte fmt chunk, empty data chunk). -/
def wavZeroChannels : List Nat :=
  [82, 73, 70, 70, 36, 0, 0, 0, 87, 65, 86, 69,
   102, 109, 116, 32, 16, 0, 0, 0,
   1, 0, 0, 0, 128, 187, 0, 0, 0, 0, 0, 0, 0, 0, 16, 0,
   100, 97, 116, 97, 0, 0, 0, 0]

/-- A 52-byte canonical mono 16-bit PCM WAV image with four data
frames. -/
def wavMonoFourFrames : List Nat :=
  [82, 73, 70, 70, 44, 0, 0, 0, 87, 65, 86, 69,
   102, 109, 116, 32, 16, 0, 0, 0,
   1, 0, 1, 0, 128, 187, 0, 0, 0, 125, 1, 0, 2, 0, 16, 0,
   100, 97, 116, 97, 8, 0, 0, 0, 1, 0, 2, 0, 3, 0, 4, 0]

/-- A concrete open mono state used to evaluate the engine operations:
one channel, four frames, 16-bit samples, data at offset 44. -/
def egState : PlayerState :=
  { file_data := wavMonoFourFrames
    file_pos := 52
    request_fifo := ⟨8, []⟩
    buff_fifo := ⟨16, [1, 2, 3, 4]⟩
    position := 0
    file_info := ⟨1, 4, 48000, 44, 8⟩
    looping := false
    playing := false
    playback_speed := 1
    current_sample := fun _ => 0
    previous_sample := fun _ => 0
    is_open := true
    pending_read := false
    pending_seek := false
    pos_acc := 0
    bytes_left_in_chunk := 0
    frame_bytes := 2 }

/-- A one-request seek state: the concrete state with a single
`Seek`-to-sample-3 request queued. -/
def seekWitnessState : PlayerState :=
  { egState with request_fifo := ⟨8, [⟨IoType.Seek, 3⟩]⟩ }

/-- A stereo state with a single queued `Seek` request to frame offset 1:
one frame is four bytes, so the spec reading would land at
`data_start + 4`. -/
def seekStereoState : PlayerState :=
  { egState with request_fifo := ⟨8, [⟨IoType.Seek, 1⟩]⟩
                 frame_bytes := 4
                 file_info := ⟨2, 1, 48000, 100, 8⟩
                 bytes_left_in_chunk := 8 }

/-- A state with two queued `Read` requests and a sample FIFO with a
single free... rather, a full one-slot sample FIFO, so that the first
refill overruns. -/
def overrunState : PlayerState :=
  { egState with
    request_fifo := ⟨8, [⟨IoType.Read, 2⟩, ⟨IoType.Read, 2⟩]⟩
    buff_fifo := ⟨1, [7]⟩
    file_data := [1, 0, 2, 0, 3, 0, 4, 0]
    file_pos := 0
    bytes_left_in_chunk := 100
    file_info := ⟨1, 4, 48000, 0, 100⟩ }

/-- A closed player state (nothing open, nothing buffered). -/
def closedState : PlayerState := { egState with is_open := false }

/-- Twelve zero bytes: a source whose RIFF magic is wrong. -/
def badMagicBytes : List Nat := [0, 0, 0, 0, 0, 0, 0, 0, 0, 0, 0, 0]

/-- The prefetch trigger of `Stream`: occupancy strictly below
`kRxFifoThreshold`, no read pending, and a positive aligned quantity. -/
def PrefetchCond (wb : Nat) (s : PlayerState) : Prop :=
  s.buff_fifo.size < kRxFifoThreshold wb ∧ s.pending_read = false ∧
    0 < rxQty wb s

instance (wb : Nat) (s : PlayerState) : Decidable (PrefetchCond wb s) :=
  inferInstanceAs (Decidable (_ ∧ _ ∧ _))

/-- A state whose 8-entry request queue is completely full while the
prefetch trigger conditions hold. -/
def fullQueueState : PlayerState :=
  { egState with
    request_fifo := ⟨8, [⟨IoType.Read, 1⟩, ⟨IoType.Read, 1⟩, ⟨IoType.Read, 1⟩,
      ⟨IoType.Read, 1⟩, ⟨IoType.Read, 1⟩, ⟨IoType.Read, 1⟩, ⟨IoType.Read, 1⟩,
      ⟨IoType.Read, 1⟩]⟩ }

/-- A state with an empty sample FIFO, playback on and a read already
pending (so no prefetch fires). -/
def underrunState : PlayerState :=
  { egState with buff_fifo := ⟨16, []⟩, playing := true, pending_read := true,
                 position := 1 }

/-- A non-looping state whose position has run past the (three-frame)
file length. -/
def eofState : PlayerState :=
  { egState with position := 5, file_info := ⟨1, 3, 48000, 44, 8⟩,
                 pending_read := true }

/-! ## Lemmas -/

/-! ## Parser lemmas -/
set_option maxHeartbeats 2000000 in
lemma parse_fmt_chunk_flags (st : ParserState) (r : Reader) (cs : Nat) :
    (parse_fmt_chunk st r cs).2.1.haveData = st.haveData ∧
    ((parse_fmt_chunk st r cs).1 = false →
      (parse_fmt_chunk st r cs).2.1.haveFmt = st.haveFmt) ∧
    ((parse_fmt_chunk st r cs).1 = true →
      (parse_fmt_chunk st r cs).2.1.haveFmt = true) := by
  refine ⟨?_, ?_, ?_⟩
  all_goals simp only [parse_fmt_chunk]
  all_goals repeat' split
  all_goals (first | rfl | (intro h; first | rfl | simp at h))

lemma parseChunkStep_flags (st : ParserState) (r : Reader) (chId cs : Nat)
    (h : (parseChunkStep st r chId cs).1 = false) :
    (parseChunkStep st r chId cs).2.1.haveFmt = st.haveFmt ∧
    (parseChunkStep st r chId cs).2.1.haveData = st.haveData := by
  revert h
  simp only [parseChunkStep, skip_chunk_payload, Reader.seek]
  repeat' split
  all_goals (intro h; first
    | exact ⟨(parse_fmt_chunk_flags st r cs).2.1 h,
        (parse_fmt_chunk_flags st r cs).1⟩
    | exact ⟨rfl, rfl⟩
    | simp at h)

set_option maxHeartbeats 1000000 in
lemma parseLoop_result (fuel : Nat) : ∀ st r,
    (st.haveFmt && st.haveData) = false →
    (parseLoop fuel st r).1 =
      ((parseLoop fuel st r).2.1.haveFmt &&
        (parseLoop fuel st r).2.1.haveData) := by
  induction fuel with
  | zero => intro st r _; simp [parseLoop]
  | succ n ih =>
    intro st r h
    rw [parseLoop]
    split
    case isTrue =>
      rcases h2 : readExact r 8 with _ | ⟨buf, r1⟩
      · simpa using h.symm
      · simp only []
        rcases h3 : parseChunkStep st r1 (rd_u32 buf) (rd_u32 (List.drop 4 buf))
          with ⟨b, st2, r2⟩
        cases b
        · have hf := parseChunkStep_flags st r1 (rd_u32 buf)
            (rd_u32 (List.drop 4 buf)) (by rw [h3])
          rw [h3] at hf
          simp only at hf
          simp only [h3]
          rw [hf.1, hf.2]
          simpa using h.symm
        · simp only [h3]
          split
          · rcases h4 : r2.read 1 with ⟨pad, r3⟩
            simp only []
            split
            · split
              case isTrue hb => simp [hb]
              case isFalse hb => exact ih st2 r3 (by simpa using hb)
            · rfl
          · split
            case isTrue hb => simp [hb]
            case isFalse hb => exact ih st2 r2 (by simpa using hb)
    case isFalse => rfl

lemma read_riff_header_flags (st : ParserState) (r : Reader) :
    (read_riff_header st r).2.1.haveFmt = st.haveFmt ∧
    (read_riff_header st r).2.1.haveData = st.haveData := by
  refine ⟨?_, ?_⟩
  all_goals simp only [read_riff_header]
  all_goals repeat' split
  all_goals rfl

lemma parse_result_eq_flags (r : Reader) :
    (parse r).1 = ((parse r).2.1.haveFmt && (parse r).2.1.haveData) := by
  unfold parse
  rcases h : read_riff_header resetState r with ⟨b, st, r1⟩
  cases b
  · have hf := read_riff_header_flags resetState r
    rw [h] at hf
    simp only at hf
    simp [hf.1, hf.2, resetState]
  · have hf := read_riff_header_flags resetState r
    rw [h] at hf
    simp only at hf
    have hfl : (st.haveFmt && st.haveData) = false := by
      rw [hf.1, hf.2]; rfl
    exact parseLoop_result (st.fileSize + 1) st r1 hfl

lemma parse_truncated_header (r : Reader)
    (h : ((r.data.drop r.pos).take 12).length ≠ 12) : (parse r).1 = false := by
  have hc : ¬ 12 ≤ r.data.length - r.pos := fun hle =>
    h (by simp [List.length_take, Nat.min_eq_left hle])
  unfold parse read_riff_header readExact Reader.read
  simp [hc]

lemma parse_bad_magic (r : Reader)
    (h : rd_u32 ((r.data.drop r.pos).take 12) ≠ FOURCC_RIFF ∨
      rd_u32 (((r.data.drop r.pos).take 12).drop 8) ≠ FOURCC_WAVE) :
    (parse r).1 = false := by
  by_cases h12 : ((r.data.drop r.pos).take 12).length = 12
  · unfold parse read_riff_header readExact Reader.read
    simp only [h12, if_true]
    rw [if_pos h]
  · exact parse_truncated_header r h12

lemma parse_fmt_chunk_small (st : ParserState) (r : Reader) (cs : Nat)
    (h : cs < 16) : (parse_fmt_chunk st r cs).1 = false := by
  simp [parse_fmt_chunk, h]

lemma parse_fmt_chunk_truncated (st : ParserState) (r : Reader) (cs : Nat)
    (h16 : 16 ≤ cs) (h : ((r.data.drop r.pos).take 16).length ≠ 16) :
    (parse_fmt_chunk st r cs).1 = false := by
  have hc : ¬ 16 ≤ r.data.length - r.pos := fun hle =>
    h (by simp [List.length_take, Nat.min_eq_left hle])
  unfold parse_fmt_chunk readExact Reader.read
  simp [Nat.not_lt.mpr h16, hc]

lemma parse_fmt_chunk_bad_tag (st : ParserState) (r : Reader) (cs : Nat)
    (h : ¬(rd_u16 ((r.data.drop r.pos).take 16) = 1 ∨
      rd_u16 ((r.data.drop r.pos).take 16) = 3 ∨
      rd_u16 ((r.data.drop r.pos).take 16) = 65534)) :
    (parse_fmt_chunk st r cs).1 = false := by
  push_neg at h
  by_cases hsm : cs < 16
  · exact parse_fmt_chunk_small st r cs hsm
  · by_cases hln : ((r.data.drop r.pos).take 16).length = 16
    · unfold parse_fmt_chunk readExact Reader.read
      simp only [hsm, if_false, hln, if_true]
      rw [if_pos ⟨h.1, h.2.1, h.2.2⟩]
    · exact parse_fmt_chunk_truncated st r cs (Nat.not_lt.mp hsm) hln

/-- Model of `f_read` does not touch the request queue. -/
lemma fileRead_fifo (s : PlayerState) (n : Nat) :
    (fileRead s n).2.request_fifo = s.request_fifo := rfl

/-- The push stage of a `Read` request neither touches the request queue
nor returns `Ok` as an error. -/
lemma prepareRead3_facts (raw : List Nat) (s : PlayerState) :
    (prepareRead3 raw s).2.request_fifo = s.request_fifo ∧
    (prepareRead3 raw s).1 ≠ some Result.Ok := by
  simp only [prepareRead3]
  split <;> exact ⟨rfl, by simp⟩

set_option maxHeartbeats 1000000 in
/-- The wrap stage of a `Read` request neither touches the request queue
nor returns `Ok` as an error. -/
lemma prepareRead2_facts (n : Nat) (bs : List Nat) (s : PlayerState) :
    (prepareRead2 n bs s).2.request_fifo = s.request_fifo ∧
    (prepareRead2 n bs s).1 ≠ some Result.Ok := by
  simp only [prepareRead2]
  split
  · split
    · split
      · split
        · exact ⟨rfl, by simp⟩
        · exact ⟨(prepareRead3_facts _ _).1, (prepareRead3_facts _ _).2⟩
      · exact ⟨(prepareRead3_facts _ _).1, (prepareRead3_facts _ _).2⟩
    · exact ⟨(prepareRead3_facts _ _).1, (prepareRead3_facts _ _).2⟩
  · exact ⟨(prepareRead3_facts _ _).1, (prepareRead3_facts _ _).2⟩

set_option maxHeartbeats 1000000 in
/-- A `Read` request neither touches the request queue nor returns `Ok`
as an error. -/
lemma prepareRead_facts (q : Nat) (s : PlayerState) :
    (prepareRead q s).2.request_fifo = s.request_fifo ∧
    (prepareRead q s).1 ≠ some Result.Ok := by
  simp only [prepareRead]
  split
  · exact ⟨rfl, by simp⟩
  · split
    · split
      · exact ⟨rfl, by simp⟩
      · exact ⟨(prepareRead2_facts _ _ _).1, (prepareRead2_facts _ _ _).2⟩
    · exact ⟨(prepareRead2_facts _ _ _).1, (prepareRead2_facts _ _ _).2⟩

/-- A `Seek` request neither touches the request queue nor returns an
error result. -/
lemma prepareSeek_facts (q : Nat) (s : PlayerState) :
    (prepareSeek q s).2.request_fifo = s.request_fifo ∧
    (prepareSeek q s).1 = none :=
  ⟨rfl, rfl⟩

/-- One dispatched request neither touches the request queue nor returns
`Ok` as an error. -/
lemma prepareStep_facts (req : IoRequest) (s : PlayerState) :
    (prepareStep req s).2.request_fifo = s.request_fifo ∧
    (prepareStep req s).1 ≠ some Result.Ok := by
  rcases req with ⟨t, d⟩
  cases t
  · exact prepareRead_facts d s
  · exact ⟨rfl, by simp [prepareStep, prepareSeek]⟩
  · exact ⟨rfl, by simp [prepareStep]⟩

/-- The `Prepare` loop always leaves a suffix of the incoming queue: it
drains to empty when it returns `Ok`, and any early error return has
already removed at least the triggering request. -/
lemma prepareGo_drains (fuel : Nat) : ∀ s : PlayerState,
    s.request_fifo.items.length < fuel →
    ∃ k, (prepareGo fuel s).2.request_fifo.items = s.request_fifo.items.drop k ∧
      ((prepareGo fuel s).1 = Result.Ok →
        (prepareGo fuel s).2.request_fifo.items = []) ∧
      ((prepareGo fuel s).1 ≠ Result.Ok → 1 ≤ k) := by
  induction fuel with
  | zero => intro s h; omega
  | succ n ih =>
    intro s h
    rw [prepareGo]
    rcases hitems : s.request_fifo.items with _ | ⟨req, rest⟩
    · refine ⟨0, ?_, ?_, fun hne => absurd rfl hne⟩
      · simp [hitems]
      · intro _; simp [hitems]
    · simp only [hitems]
      rcases hstep : prepareStep req
          { s with request_fifo := { s.request_fifo with items := rest } }
        with ⟨oe, s1⟩
      have hfacts := prepareStep_facts req
        { s with request_fifo := { s.request_fifo with items := rest } }
      rw [hstep] at hfacts
      simp only at hfacts
      have hq1 : s1.request_fifo.items = rest := by rw [hfacts.1]
      rcases oe with _ | e
      · simp only [hstep]
        have hlen : s1.request_fifo.items.length < n := by
          rw [hq1]
          rw [hitems] at h
          simpa using Nat.lt_of_succ_lt_succ h
        obtain ⟨k, hk1, hk2, hk3⟩ := ih s1 hlen
        refine ⟨k + 1, ?_, hk2, fun _ => by omega⟩
        rw [hk1, hq1, List.drop_succ_cons]
      · simp only [hstep]
        refine ⟨1, ?_, ?_, fun _ => le_refl 1⟩
        · rw [hq1, List.drop_succ_cons, List.drop_zero]
        · intro hok
          exact absurd (congrArg some hok) hfacts.2

/-- The pop loop changes only the interpolator samples, the sample FIFO,
the position and the accumulator. -/
lemma streamWhileGo_const (n : Nat) : ∀ s : PlayerState,
    (streamWhileGo n s).request_fifo = s.request_fifo ∧
    (streamWhileGo n s).playing = s.playing ∧
    (streamWhileGo n s).looping = s.looping ∧
    (streamWhileGo n s).file_info = s.file_info ∧
    (streamWhileGo n s).pending_read = s.pending_read := by
  induction n with
  | zero => intro s; exact ⟨rfl, rfl, rfl, rfl, rfl⟩
  | succ n ih =>
    intro s
    rw [streamWhileGo]
    split
    · exact ih _
    · exact ⟨rfl, rfl, rfl, rfl, rfl⟩

/-- The advance phase of `Stream` changes only the interpolator samples,
the sample FIFO, the position and the accumulator. -/
lemma streamAdvance_const (s : PlayerState) :
    (streamAdvance s).request_fifo = s.request_fifo ∧
    (streamAdvance s).playing = s.playing ∧
    (streamAdvance s).looping = s.looping ∧
    (streamAdvance s).file_info = s.file_info ∧
    (streamAdvance s).pending_read = s.pending_read := by
  unfold streamAdvance
  split
  · exact streamWhileGo_const _ _
  · exact ⟨rfl, rfl, rfl, rfl, rfl⟩

/-- The end-of-file phase of `Stream` changes only the position, the
playing flag, the accumulator and the previous samples. -/
lemma streamEof_const (s : PlayerState) :
    (streamEof s).request_fifo = s.request_fifo ∧
    (streamEof s).pending_read = s.pending_read ∧
    (streamEof s).buff_fifo = s.buff_fifo ∧
    (streamEof s).looping = s.looping ∧
    (streamEof s).file_info = s.file_info := by
  unfold streamEof
  repeat' split
  all_goals exact ⟨rfl, rfl, rfl, rfl, rfl⟩

/-- The prefetch phase of `Stream` changes only the request queue and the
pending-read flag. -/
lemma streamPrefetch_const (wb : Nat) (s : PlayerState) :
    (streamPrefetch wb s).2.position = s.position ∧
    (streamPrefetch wb s).2.playing = s.playing ∧
    (streamPrefetch wb s).2.pos_acc = s.pos_acc ∧
    (streamPrefetch wb s).2.previous_sample = s.previous_sample ∧
    (streamPrefetch wb s).2.current_sample = s.current_sample ∧
    (streamPrefetch wb s).2.buff_fifo = s.buff_fifo ∧
    (streamPrefetch wb s).2.looping = s.looping := by
  unfold streamPrefetch
  repeat' split
  all_goals exact ⟨rfl, rfl, rfl, rfl, rfl, rfl, rfl⟩

/-- Case analysis of the prefetch phase: with the trigger conditions and
room in the request queue the `Read` request is appended; with a full
queue the push is silently dropped while the pending flag is still set;
without the trigger conditions nothing happens. -/
lemma streamPrefetch_cases (wb : Nat) (s : PlayerState) :
    (PrefetchCond wb s → s.request_fifo.items.length < s.request_fifo.cap →
      (streamPrefetch wb s).2.request_fifo.items =
        s.request_fifo.items ++ [⟨IoType.Read, rxQty wb s⟩] ∧
      (streamPrefetch wb s).2.pending_read = true ∧
      (streamPrefetch wb s).1 = true) ∧
    (PrefetchCond wb s → s.request_fifo.cap ≤ s.request_fifo.items.length →
      (streamPrefetch wb s).2.request_fifo.items = s.request_fifo.items ∧
      (streamPrefetch wb s).2.pending_read = true ∧
      (streamPrefetch wb s).1 = true) ∧
    (¬ PrefetchCond wb s →
      (streamPrefetch wb s).2 = s ∧ (streamPrefetch wb s).1 = false) := by
  refine ⟨?_, ?_, ?_⟩
  · intro h hlen
    simp only [streamPrefetch, Fifo.pushBack]
    rw [if_pos ⟨h.1, h.2.1⟩, if_pos h.2.2, if_pos hlen]
    exact ⟨rfl, rfl, rfl⟩
  · intro h hlen
    simp only [streamPrefetch, Fifo.pushBack]
    rw [if_pos ⟨h.1, h.2.1⟩, if_pos h.2.2, if_neg (by omega)]
    exact ⟨rfl, rfl, rfl⟩
  · intro h
    simp only [streamPrefetch, Fifo.pushBack]
    by_cases h1 : s.buff_fifo.size < kRxFifoThreshold wb ∧ s.pending_read = false
    · rw [if_pos h1, if_neg (fun h2 => h ⟨h1.1, h1.2, h2⟩)]
      exact ⟨rfl, rfl⟩
    · rw [if_neg h1]
      exact ⟨rfl, rfl⟩

/-- The `requested_new_samps` flag is raised exactly when the prefetch
trigger conditions hold. -/
lemma streamPrefetch_fire (wb : Nat) (s : PlayerState) :
    (streamPrefetch wb s).1 = true ↔ PrefetchCond wb s := by
  constructor
  · intro h
    by_contra hc
    rw [((streamPrefetch_cases wb s).2.2 hc).2] at h
    exact Bool.false_ne_true h
  · intro h
    by_cases hlen : s.request_fifo.items.length < s.request_fifo.cap
    · exact ((streamPrefetch_cases wb s).1 h hlen).2.2
    · exact ((streamPrefetch_cases wb s).2.1 h (by omega)).2.2

/-- The queue of the state reaching the prefetch phase is the queue of
the `Stream` argument. -/
lemma stream_pre_prefetch_queue (s : PlayerState) :
    (streamEof (streamAdvance s)).request_fifo = s.request_fifo := by
  rw [(streamEof_const _).1, (streamAdvance_const _).1]

/-- The pending-read flag of the state reaching the prefetch phase is the
flag of the `Stream` argument. -/
lemma stream_pre_prefetch_pending (s : PlayerState) :
    (streamEof (streamAdvance s)).pending_read = s.pending_read := by
  rw [(streamEof_const _).2.1, (streamAdvance_const _).2.2.2.2]

/-- With the trigger conditions and room in the queue, a `Stream` call
appends exactly one `Read` request and sets the pending flag. -/
lemma stream_prefetch_push (wb : Nat) (s : PlayerState) (nch : Nat)
    (h : PrefetchCond wb (streamEof (streamAdvance s)))
    (hlen : s.request_fifo.items.length < s.request_fifo.cap) :
    (Stream wb s nch).2.2.request_fifo.items =
      s.request_fifo.items ++
        [⟨IoType.Read, rxQty wb (streamEof (streamAdvance s))⟩] ∧
    (Stream wb s nch).2.2.pending_read = true := by
  have hq := stream_pre_prefetch_queue s
  have hc := (streamPrefetch_cases wb (streamEof (streamAdvance s))).1 h
    (by rw [hq]; exact hlen)
  exact ⟨by rw [show (Stream wb s nch).2.2 =
      (streamPrefetch wb (streamEof (streamAdvance s))).2 from rfl, hc.1, hq],
    hc.2.1⟩

/-- With the trigger conditions but a full queue, the push is dropped
silently while the pending flag is still set. -/
lemma stream_prefetch_drop (wb : Nat) (s : PlayerState) (nch : Nat)
    (h : PrefetchCond wb (streamEof (streamAdvance s)))
    (hlen : s.request_fifo.cap ≤ s.request_fifo.items.length) :
    (Stream wb s nch).2.2.request_fifo.items = s.request_fifo.items ∧
    (Stream wb s nch).2.2.pending_read = true := by
  have hq := stream_pre_prefetch_queue s
  have hc := (streamPrefetch_cases wb (streamEof (streamAdvance s))).2.1 h
    (by rw [hq]; omega)
  exact ⟨by rw [show (Stream wb s nch).2.2 =
      (streamPrefetch wb (streamEof (streamAdvance s))).2 from rfl, hc.1, hq],
    hc.2.1⟩

/-- Without the trigger conditions, queue and pending flag are
untouched. -/
lemma stream_prefetch_none (wb : Nat) (s : PlayerState) (nch : Nat)
    (h : ¬ PrefetchCond wb (streamEof (streamAdvance s))) :
    (Stream wb s nch).2.2.request_fifo.items = s.request_fifo.items ∧
    (Stream wb s nch).2.2.pending_read = s.pending_read := by
  have hc := (streamPrefetch_cases wb (streamEof (streamAdvance s))).2.2 h
  rw [show (Stream wb s nch).2.2 =
    (streamPrefetch wb (streamEof (streamAdvance s))).2 from rfl, hc.1]
  exact ⟨by rw [stream_pre_prefetch_queue s],
    stream_pre_prefetch_pending s⟩

/-- A raised `requested_new_samps` flag forces the result
`NewSamplesRequested`. -/
lemma stream_result_of_requested (wb : Nat) (s : PlayerState) (nch : Nat)
    (h : streamRequested wb s = true) :
    (Stream wb s nch).2.1 = Result.NewSamplesRequested := by
  simp only [Stream, h, if_true]

/-- Once the playing flag is down, a `Stream` step never raises it. -/
lemma streamNext_playing_false (wb : Nat) (s : PlayerState)
    (h : s.playing = false) : (streamNext wb s).playing = false := by
  unfold streamNext
  have h1 : (streamAdvance s).playing = false := by
    rw [(streamAdvance_const s).2.1, h]
  have h2 : (streamEof (streamAdvance s)).playing = false := by
    unfold streamEof
    split
    · split
      · rfl
      · exact h1
    · exact h1
  rw [(streamPrefetch_const wb _).2.1, h2]

/-- When the position has reached the effective file length, the
end-of-file phase resets the position and either clears the playing flag
(not looping) or clears the accumulator and copies `current` into
`previous` (looping). -/
lemma streamEof_hit (s : PlayerState) (h : effLength s ≤ s.position) :
    (s.looping = false →
      streamEof s = { s with position := 0, playing := false }) ∧
    (s.looping = true →
      streamEof s =
        { s with position := 0, pos_acc := 0,
                 previous_sample := s.current_sample }) := by
  constructor <;> intro hl <;> unfold streamEof <;> rw [if_pos h] <;>
    simp [hl]

/-! ## The claims -/

/-- C1: `parse` reports success exactly when both a fmt chunk and a data
chunk were found (the two found-flags of the final state), and it reports
failure on a truncated RIFF header, a wrong RIFF or WAVE magic, a fmt
chunk declaring a size below 16 bytes, a fmt payload shorter than its
required 16 bytes, and an audio-format tag outside PCM (1), IEEE-float
(3) and Extensible (0xFFFE). -/
theorem claim1_parse_success_iff_and_failure_modes :
    (∀ r : Reader,
      (parse r).1 = ((parse r).2.1.haveFmt && (parse r).2.1.haveData)) ∧
    (∀ r : Reader, ((r.data.drop r.pos).take 12).length ≠ 12 →
      (parse r).1 = false) ∧
    (∀ r : Reader,
      rd_u32 ((r.data.drop r.pos).take 12) ≠ FOURCC_RIFF ∨
        rd_u32 (((r.data.drop r.pos).take 12).drop 8) ≠ FOURCC_WAVE →
      (parse r).1 = false) ∧
    (∀ (st : ParserState) (r : Reader) (cs : Nat), cs < 16 →
      (parse_fmt_chunk st r cs).1 = false) ∧
    (∀ (st : ParserState) (r : Reader) (cs : Nat), 16 ≤ cs →
      ((r.data.drop r.pos).take 16).length ≠ 16 →
      (parse_fmt_chunk st r cs).1 = false) ∧
    (∀ (st : ParserState) (r : Reader) (cs : Nat),
      ¬(rd_u16 ((r.data.drop r.pos).take 16) = 1 ∨
        rd_u16 ((r.data.drop r.pos).take 16) = 3 ∨
        rd_u16 ((r.data.drop r.pos).take 16) = 65534) →
      (parse_fmt_chunk st r cs).1 = false) :=
  ⟨parse_result_eq_flags, parse_truncated_header, parse_bad_magic,
    parse_fmt_chunk_small, parse_fmt_chunk_truncated, parse_fmt_chunk_bad_tag⟩

/-- Witness for C1: each failure mode exercised at a concrete input, and
the success-iff-flags equation at a concrete reader. -/
theorem claim1_witness :
    (parse ⟨[], 0⟩).1 =
      ((parse ⟨[], 0⟩).2.1.haveFmt && (parse ⟨[], 0⟩).2.1.haveData) ∧
    (parse ⟨[0, 1, 2], 0⟩).1 = false ∧
    (parse ⟨[0, 0, 0, 0, 0, 0, 0, 0, 0, 0, 0, 0], 0⟩).1 = false ∧
    (parse_fmt_chunk resetState ⟨[], 0⟩ 0).1 = false ∧
    (parse_fmt_chunk resetState ⟨[], 0⟩ 16).1 = false ∧
    (parse_fmt_chunk resetState
      ⟨[2, 0, 0, 0, 0, 0, 0, 0, 0, 0, 0, 0, 0, 0, 0, 0], 0⟩ 16).1 = false := by
  have h := claim1_parse_success_iff_and_failure_modes
  exact ⟨h.1 ⟨[], 0⟩,
    h.2.1 ⟨[0, 1, 2], 0⟩ (by decide),
    h.2.2.1 ⟨[0, 0, 0, 0, 0, 0, 0, 0, 0, 0, 0, 0], 0⟩ (Or.inl (by decide)),
    h.2.2.2.1 resetState ⟨[], 0⟩ 0 (by decide),
    h.2.2.2.2.1 resetState ⟨[], 0⟩ 16 (by decide) (by decide),
    h.2.2.2.2.2 resetState
      ⟨[2, 0, 0, 0, 0, 0, 0, 0, 0, 0, 0, 0, 0, 0, 0, 0], 0⟩ 16 (by decide)⟩

/-- Counterexample to C7 as stated: a byte source on which `parse`
succeeds while the parsed channel count is `0` (the parser never
validates the channel field). -/
theorem claim7_counterexample :
    (parse ⟨wavZeroChannels, 0⟩).1 = true ∧
    (parse ⟨wavZeroChannels, 0⟩).2.1.fmt.numChannels = 0 := by
  decide

/-- C7 (amended): a successful `parse` guarantees that a fmt chunk was
parsed (`haveFmt` is set); the channel count itself is whatever 16-bit
value the fmt chunk encodes, and may be `0`. -/
theorem claim7_parse_success_means_fmt_parsed (r : Reader)
    (h : (parse r).1 = true) : (parse r).2.1.haveFmt = true := by
  have he := parse_result_eq_flags r
  rw [h] at he
  exact ((Bool.and_eq_true _ _).mp he.symm).1

/-- Witness for C7 (amended): a concrete successful parse. -/
theorem claim7_witness :
    (parse ⟨wavMonoFourFrames, 0⟩).2.1.haveFmt = true :=
  claim7_parse_success_means_fmt_parsed ⟨wavMonoFourFrames, 0⟩ (by decide)

/-- Counterexample to C5 as stated: `Close` leaves `data_size_bytes`
untouched, so not every `FileInfo` field is zero afterwards. -/
theorem claim5_counterexample :
    (Close egState).2.file_info.data_size_bytes ≠ 0 := by
  decide

/-- C5 (amended): `Close` zeroes the `channels`, `length`, `samplerate`
and `data_start` fields of `FileInfo` and clears the open and playing
flags, but leaves `data_size_bytes` unchanged. -/
theorem claim5_close_clears_state (s : PlayerState) :
    (Close s).1 = Result.Ok ∧
    (Close s).2.file_info.channels = 0 ∧
    (Close s).2.file_info.length = 0 ∧
    (Close s).2.file_info.samplerate = 0 ∧
    (Close s).2.file_info.data_start = 0 ∧
    (Close s).2.is_open = false ∧
    (Close s).2.playing = false ∧
    (Close s).2.file_info.data_size_bytes = s.file_info.data_size_bytes :=
  ⟨rfl, rfl, rfl, rfl, rfl, rfl, rfl, rfl⟩

/-- C6 (amended): processing a `Seek` request with sample offset `q`
converts it to bytes at two bytes per 16-bit sample (not per frame),
clamps to the data size, rounds down to a whole frame, seeks the source to
the data start plus that offset, sets the remaining byte count to data
size minus the offset and clears the pending-seek flag. -/
theorem claim6_seek_request_processing (s : PlayerState) (q : Nat)
    (hq : s.request_fifo.items = [⟨IoType.Seek, q⟩])
    (_hf : 0 < s.frame_bytes) :
    (Prepare s).1 = Result.Ok ∧
    (Prepare s).2.file_pos =
      s.file_info.data_start +
        (min (q * 2) s.file_info.data_size_bytes -
          min (q * 2) s.file_info.data_size_bytes % s.frame_bytes) ∧
    (Prepare s).2.bytes_left_in_chunk =
      s.file_info.data_size_bytes -
        (min (q * 2) s.file_info.data_size_bytes -
          min (q * 2) s.file_info.data_size_bytes % s.frame_bytes) ∧
    (Prepare s).2.pending_seek = false := by
  simp [Prepare, prepareGo, prepareStep, prepareSeek, hq]

/-- Witness for C6 (amended): seeking to sample 3 of the mono file lands
at `data_start + 6` bytes. -/
theorem claim6_witness :
    (Prepare seekWitnessState).2.file_pos = 50 ∧
    (Prepare seekWitnessState).2.pending_seek = false := by
  have h := claim6_seek_request_processing seekWitnessState 3 rfl (by decide)
  refine ⟨?_, h.2.2.2⟩
  rw [h.2.1]
  decide

/-- Counterexample to C6 as stated: for the stereo file the code seeks to
`data_start + q * 2` (clamped and frame-aligned), not to
`data_start + q * frame_bytes`; at `q = 1` the code lands on byte offset
0, the claim's formula on byte offset 4. -/
theorem claim6_counterexample :
    (Prepare seekStereoState).2.file_pos = 100 ∧
    seekStereoState.file_info.data_start +
      (min (1 * seekStereoState.frame_bytes)
          seekStereoState.file_info.data_size_bytes -
        min (1 * seekStereoState.frame_bytes)
            seekStereoState.file_info.data_size_bytes %
          seekStereoState.frame_bytes) = 104 ∧
    (100 : Nat) ≠ 104 := by
  decide

/-- C4 (amended): `Prepare` drains the request queue in FIFO order (the
queue left behind is always a suffix of the incoming queue); a call that
returns `Ok` has emptied the queue; a call that returns early -- on a
source I/O error or on a ring-buffer overrun -- has already removed the
triggering request, which is not re-queued. -/
theorem claim4_prepare_drains_queue (s : PlayerState) :
    ∃ k, (Prepare s).2.request_fifo.items = s.request_fifo.items.drop k ∧
      ((Prepare s).1 = Result.Ok → (Prepare s).2.request_fifo.items = []) ∧
      ((Prepare s).1 ≠ Result.Ok → 1 ≤ k) :=
  prepareGo_drains (s.request_fifo.items.length + 1) s (Nat.lt_succ_self _)

/-- Counterexample to C4 as stated: a ring-buffer overrun (not a source
I/O error) makes `Prepare` return with the second request still queued. -/
theorem claim4_counterexample :
    (Prepare overrunState).1 = Result.PrepareOverrun ∧
    (Prepare overrunState).2.request_fifo.items ≠ [] := by
  decide

/-- Witness for C4 (amended): on a state with one seek request `Prepare`
returns `Ok` and the queue is empty afterwards. -/
theorem claim4_witness :
    (Prepare seekWitnessState).2.request_fifo.items = [] := by
  obtain ⟨k, h1, h2, h3⟩ := claim4_prepare_drains_queue seekWitnessState
  exact h2 (by decide)

/-- C8 (amended): `Open` leaves the whole state untouched when `f_open`
itself fails (file missing or any other open error); once the file opens,
the open flag is set to true before parsing, so a later failure (bad
container, zero frame size, short prime read) returns `DiskError` with
the open flag forced to true and possibly `FileInfo`/frame size
overwritten -- but the ring-buffer contents, position, pending flags and
remaining-byte count are still unchanged on every failure path. -/
theorem claim8_open_failure_effects :
    (∀ (wb : Nat) (s : PlayerState),
      Open wb s FOpen.missing = (Result.FileNotFoundError, s)) ∧
    (∀ (wb : Nat) (s : PlayerState),
      Open wb s FOpen.failed = (Result.DiskError, s)) ∧
    (∀ (wb : Nat) (s : PlayerState) (bytes : List Nat),
      (Open wb s (FOpen.found bytes)).1 ≠ Result.Ok →
      (Open wb s (FOpen.found bytes)).1 = Result.DiskError ∧
      (Open wb s (FOpen.found bytes)).2.buff_fifo = s.buff_fifo ∧
      (Open wb s (FOpen.found bytes)).2.position = s.position ∧
      (Open wb s (FOpen.found bytes)).2.pending_read = s.pending_read ∧
      (Open wb s (FOpen.found bytes)).2.pending_seek = s.pending_seek ∧
      (Open wb s (FOpen.found bytes)).2.bytes_left_in_chunk =
        s.bytes_left_in_chunk ∧
      (Open wb s (FOpen.found bytes)).2.is_open = true) := by
  refine ⟨fun wb s => rfl, fun wb s => rfl, fun wb s bytes => ?_⟩
  simp only [Open]
  rcases hp : parse ⟨bytes, 0⟩ with ⟨b, pst, rd⟩
  cases b
  · exact fun _ => ⟨rfl, rfl, rfl, rfl, rfl, rfl, rfl⟩
  · simp only []
    split
    · exact fun _ => ⟨rfl, rfl, rfl, rfl, rfl, rfl, rfl⟩
    · split
      · split
        · exact fun _ => ⟨rfl, rfl, rfl, rfl, rfl, rfl, rfl⟩
        · exact fun h => absurd rfl h
      · exact fun h => absurd rfl h

/-- Counterexample to C8 as stated: opening a source with a bad RIFF
magic from a closed state returns `DiskError`, yet the open flag has been
flipped from `false` to `true` -- prior engine state is mutated. -/
theorem claim8_counterexample :
    (Open 16 closedState (FOpen.found badMagicBytes)).1 = Result.DiskError ∧
    (Open 16 closedState (FOpen.found badMagicBytes)).2.is_open = true ∧
    closedState.is_open = false := by
  decide

/-- Witness for C8 (amended): the failure branches evaluated at a
concrete closed state and bad byte source. -/
theorem claim8_witness :
    Open 16 closedState FOpen.missing =
      (Result.FileNotFoundError, closedState) ∧
    (Open 16 closedState (FOpen.found badMagicBytes)).2.buff_fifo =
      closedState.buff_fifo ∧
    (Open 16 closedState (FOpen.found badMagicBytes)).2.position =
      closedState.position := by
  have h := claim8_open_failure_effects
  have h3 := h.2.2 16 closedState badMagicBytes (by decide)
  exact ⟨h.1 16 closedState, h3.2.1, h3.2.2.1⟩

/-- C2 (amended): each `Stream` call grows the request queue by at most
one entry; when the prefetch trigger (occupancy strictly below
`(capacity/4)*3`, no read pending, positive aligned quantity) holds at
the prefetch point and the request queue has room, exactly the `Read`
request for the aligned quantity is appended and the pending-read flag is
set; when the trigger holds but the 8-entry queue is full the push is
silently dropped while the flag is still set; when the trigger fails the
queue and the flag are untouched. -/
theorem claim2_stream_prefetch (wb : Nat) (s : PlayerState) (nch : Nat) :
    ((Stream wb s nch).2.2.request_fifo.items.length ≤
      s.request_fifo.items.length + 1) ∧
    (PrefetchCond wb (streamEof (streamAdvance s)) →
      s.request_fifo.items.length < s.request_fifo.cap →
      (Stream wb s nch).2.2.request_fifo.items =
        s.request_fifo.items ++
          [⟨IoType.Read, rxQty wb (streamEof (streamAdvance s))⟩] ∧
      (Stream wb s nch).2.2.pending_read = true) ∧
    (PrefetchCond wb (streamEof (streamAdvance s)) →
      s.request_fifo.cap ≤ s.request_fifo.items.length →
      (Stream wb s nch).2.2.request_fifo.items = s.request_fifo.items ∧
      (Stream wb s nch).2.2.pending_read = true) ∧
    (¬ PrefetchCond wb (streamEof (streamAdvance s)) →
      (Stream wb s nch).2.2.request_fifo.items = s.request_fifo.items ∧
      (Stream wb s nch).2.2.pending_read = s.pending_read) := by
  refine ⟨?_, stream_prefetch_push wb s nch, stream_prefetch_drop wb s nch,
    stream_prefetch_none wb s nch⟩
  by_cases h : PrefetchCond wb (streamEof (streamAdvance s))
  · by_cases hlen : s.request_fifo.items.length < s.request_fifo.cap
    · rw [(stream_prefetch_push wb s nch h hlen).1]
      simp
    · rw [(stream_prefetch_drop wb s nch h (by omega)).1]
      omega
  · rw [(stream_prefetch_none wb s nch h).1]
    omega

/-- Counterexample to C2 as stated: at this state the trigger conditions
hold, yet the queue is full, the push fails silently and no `Read`
request is enqueued -- the queue after `Stream` equals the queue
before. -/
theorem claim2_counterexample :
    PrefetchCond 32 (streamEof (streamAdvance fullQueueState)) ∧
    (Stream 32 fullQueueState 1).2.2.request_fifo.items =
      fullQueueState.request_fifo.items := by
  exact ⟨by decide, by decide⟩

/-- Witness for C2 (amended): at a state with room, the aligned `Read`
request is appended and the pending flag set. -/
theorem claim2_witness :
    (Stream 32 egState 1).2.2.request_fifo.items = [⟨IoType.Read, 11⟩] ∧
    (Stream 32 egState 1).2.2.pending_read = true := by
  have h := (claim2_stream_prefetch 32 egState 1).2.1 (by decide) (by decide)
  exact ⟨by rw [h.1]; rfl, h.2⟩

/-- C9: whenever the `requested_new_samps` flag was raised -- in
particular whenever a prefetch `Read` request actually entered the
queue -- `Stream` returns `NewSamplesRequested`, even if the ring buffer
was empty while playing during that same call; `PlaybackUnderrun` is
returned only on calls that raised no prefetch (and hence enqueued
none), with the buffer empty and playback on at return time. -/
theorem claim9_stream_result (wb : Nat) (s : PlayerState) (nch : Nat) :
    (streamRequested wb s = true →
      (Stream wb s nch).2.1 = Result.NewSamplesRequested) ∧
    ((Stream wb s nch).2.1 = Result.PlaybackUnderrun →
      streamRequested wb s = false ∧
      (streamNext wb s).buff_fifo.isEmpty = true ∧
      (streamNext wb s).playing = true) ∧
    ((streamNext wb s).request_fifo.items ≠ s.request_fifo.items →
      (Stream wb s nch).2.1 = Result.NewSamplesRequested) := by
  refine ⟨stream_result_of_requested wb s nch, ?_, ?_⟩
  · intro h
    by_cases hr : streamRequested wb s = true
    · simp only [Stream, hr, if_true] at h
      exact absurd h (by simp)
    · have hr0 : streamRequested wb s = false := by
        revert hr; cases streamRequested wb s <;> simp
      refine ⟨hr0, ?_⟩
      simp only [Stream, hr0, Bool.false_eq_true, if_false] at h
      by_cases he : (streamNext wb s).buff_fifo.isEmpty = true ∧
          (streamNext wb s).playing = true
      · exact he
      · rw [if_neg he] at h
        exact absurd h (by simp)
  · intro h
    by_cases hr : streamRequested wb s = true
    · simp only [Stream, hr, if_true]
    · exfalso
      have hnc : ¬ PrefetchCond wb (streamEof (streamAdvance s)) := by
        intro hc
        exact hr ((streamPrefetch_fire wb _).mpr hc)
      have := ((streamPrefetch_cases wb (streamEof (streamAdvance s))).2.2
        hnc).1
      apply h
      show (streamPrefetch wb (streamEof (streamAdvance s))).2.request_fifo.items
        = s.request_fifo.items
      rw [this, stream_pre_prefetch_queue s]

/-- Witness for C9: a call that raises a prefetch returns
`NewSamplesRequested`, and a call with an empty buffer, playback on and a
pending read returns `PlaybackUnderrun` with no prefetch raised. -/
theorem claim9_witness :
    (Stream 32 egState 1).2.1 = Result.NewSamplesRequested ∧
    streamRequested 32 underrunState = false := by
  refine ⟨(claim9_stream_result 32 egState 1).1 (by decide), ?_⟩
  have h := (claim9_stream_result 32 underrunState 1).2.1 (by decide)
  exact h.1

/-- C10 (amended): when the prefetch trigger holds but the fixed 8-entry
request queue is already full, the push's failure result is ignored: the
request is dropped with no error indication, the pending-read flag is
still set and `Stream` still returns `NewSamplesRequested`, so that
`Read` request never reaches `Prepare`.  `Restart` ignores its push
results too, but it clears the queue first, so its Seek-to-0 and
capacity-sized Read are always enqueued and never dropped. -/
theorem claim10_full_queue_drop (wb : Nat) :
    (∀ (s : PlayerState) (nch : Nat),
      PrefetchCond wb (streamEof (streamAdvance s)) →
      s.request_fifo.cap ≤ s.request_fifo.items.length →
      (Stream wb s nch).2.2.request_fifo.items = s.request_fifo.items ∧
      (Stream wb s nch).2.2.pending_read = true ∧
      (Stream wb s nch).2.1 = Result.NewSamplesRequested) ∧
    (∀ s : PlayerState, 2 ≤ s.request_fifo.cap →
      (Restart wb s).request_fifo.items =
        ⟨IoType.Seek, 0⟩ ::
          (if 0 < restartQty wb s then [⟨IoType.Read, restartQty wb s⟩]
           else [])) := by
  constructor
  · intro s nch h hlen
    have hc := stream_prefetch_drop wb s nch h hlen
    refine ⟨hc.1, hc.2, ?_⟩
    have hf : streamRequested wb s = true :=
      (streamPrefetch_fire wb _).mpr h
    exact stream_result_of_requested wb s nch hf
  · intro s hcap
    have h0 : 0 < s.request_fifo.cap := by omega
    have h1 : 1 < s.request_fifo.cap := by omega
    simp [Restart, Fifo.clear, Fifo.pushBack, restartQty, h0, h1]
    split <;> split <;> rfl

/-- Counterexample to C10 as stated: `Restart` from a state whose 8-entry
request queue is completely full still enqueues its Seek-to-0 and
capacity-sized Read -- the clear that precedes the pushes means a
`Restart` request is never dropped. -/
theorem claim10_counterexample :
    fullQueueState.request_fifo.items.length = 8 ∧
    fullQueueState.request_fifo.cap = 8 ∧
    (Restart 32 fullQueueState).request_fifo.items =
      [⟨IoType.Seek, 0⟩, ⟨IoType.Read, 16⟩] := by
  decide

/-- Witness for C10 (amended): the full-queue prefetch drop evaluated at
a concrete state. -/
theorem claim10_witness :
    (Stream 32 fullQueueState 1).2.2.request_fifo.items =
      fullQueueState.request_fifo.items ∧
    (Stream 32 fullQueueState 1).2.2.pending_read = true ∧
    (Stream 32 fullQueueState 1).2.1 = Result.NewSamplesRequested := by
  have h := (claim10_full_queue_drop 32).1 fullQueueState 1 (by decide)
    (by decide)
  exact h

/-- C3: on a `Stream` call whose position has reached the file length
(length `0` counting as `1`) at the end-of-file check, position is reset
to `0`; without looping the playing flag is cleared and stays down across
any number of further `Stream` calls -- only `SetPlaying true` or
`Restart` raise it again; with looping the accumulator is reset to `0`
and the previous decoded sample of every channel is set equal to the
current one. -/
theorem claim3_stream_eof (wb : Nat) (s : PlayerState) (nch : Nat)
    (h : effLength (streamAdvance s) ≤ (streamAdvance s).position) :
    (Stream wb s nch).2.2.position = 0 ∧
    (s.looping = false → (Stream wb s nch).2.2.playing = false ∧
      ∀ n : Nat,
        ((streamNext wb)^[n] (Stream wb s nch).2.2).playing = false) ∧
    (s.looping = true → (Stream wb s nch).2.2.pos_acc = 0 ∧
      (Stream wb s nch).2.2.previous_sample =
        (Stream wb s nch).2.2.current_sample) ∧
    (∀ t : PlayerState, (SetPlaying t true).playing = true) ∧
    (∀ t : PlayerState, (Restart wb t).playing = true) := by
  have hshow : (Stream wb s nch).2.2 =
      (streamPrefetch wb (streamEof (streamAdvance s))).2 := rfl
  have hloop : (streamAdvance s).looping = s.looping :=
    (streamAdvance_const s).2.2.1
  have hpc := streamPrefetch_const wb (streamEof (streamAdvance s))
  refine ⟨?_, ?_, ?_, fun t => rfl, fun t => rfl⟩
  · by_cases hl : (streamAdvance s).looping = false
    · rw [hshow, hpc.1, (streamEof_hit _ h).1 hl]
    · have hl2 : (streamAdvance s).looping = true := by
        revert hl; cases (streamAdvance s).looping <;> simp
      rw [hshow, hpc.1, (streamEof_hit _ h).2 hl2]
  · intro hl
    have hl1 : (streamAdvance s).looping = false := by rw [hloop, hl]
    have hpl : (Stream wb s nch).2.2.playing = false := by
      rw [hshow, hpc.2.1, (streamEof_hit _ h).1 hl1]
    refine ⟨hpl, ?_⟩
    intro n
    induction n with
    | zero => simpa using hpl
    | succ n ih =>
      rw [Function.iterate_succ_apply']
      exact streamNext_playing_false wb _ ih
  · intro hl
    have hl1 : (streamAdvance s).looping = true := by rw [hloop, hl]
    constructor
    · rw [hshow, hpc.2.2.1, (streamEof_hit _ h).2 hl1]
    · rw [hshow, hpc.2.2.2.1, hpc.2.2.2.2.1, (streamEof_hit _ h).2 hl1]

/-- Witness for C3: at the concrete state the position resets to `0`, the
playing flag is cleared and remains cleared two `Stream` calls later. -/
theorem claim3_witness :
    (Stream 32 eofState 1).2.2.position = 0 ∧
    (Stream 32 eofState 1).2.2.playing = false ∧
    ((streamNext 32)^[2] (Stream 32 eofState 1).2.2).playing = false := by
  have h := claim3_stream_eof 32 eofState 1 (by decide)
  exact ⟨h.1, (h.2.1 rfl).1, (h.2.1 rfl).2 2⟩

end DaisyWav
